import Mathlib

/- Verification development for the outreach-generation pipeline
(src/pipeline.py, src/utils.py, src/schemas.py). Python strings are
embedded as lists of characters, Python `json` values as the `Json`
inductive below, and the language-model agent as an opaque function from
the attempt index to the response text (the source re-sends an identical
prompt on each attempt and extracts text with a tolerant accessor, so the
prompt string itself carries no information beyond the attempt index).
Statements about `lower`/`strip` model the ASCII behaviour of the Python
string methods; the pipeline data is ASCII except for fixed French
literals, which are case-stable here. -/

set_option maxRecDepth 20000

/-- Python strings are modelled as lists of characters. -/
abbrev Str := List Char

/-- Shorthand turning a Lean string literal into the `Str` embedding. -/
def S (s : String) : Str := s.data

/-- Python `str.lower()` (ASCII range, which covers the pipeline's patterns). -/
def lowerStr (s : Str) : Str := s.map Char.toLower

/-- Characters treated as whitespace by Python `str.strip()` and `\s` (ASCII part). -/
def isPySpace (c : Char) : Bool :=
  c = ' ' ∨ c = '\t' ∨ c = '\n' ∨ c = '\r' ∨ c = '\x0b' ∨ c = '\x0c'

/-- Python `str.strip()` with no argument: drop leading and trailing whitespace. -/
def pyStrip (s : Str) : Str :=
  ((s.dropWhile isPySpace).reverse.dropWhile isPySpace).reverse

/-- Bool test: `pat` is a leading segment of `l`. -/
def strStarts : Str → Str → Bool
  | [], _ => true
  | _ :: _, [] => false
  | p :: ps, c :: cs => p = c && strStarts ps cs

/-- Bool test: `pat` is a trailing segment of `l` (Python `str.endswith`). -/
def strEnds (pat l : Str) : Bool := strStarts pat.reverse l.reverse

/-- Bool test: `pat` occurs contiguously inside `l` (Python `pat in l`). -/
def strHasSub (pat : Str) : Str → Bool
  | [] => strStarts pat []
  | c :: rest => strStarts pat (c :: rest) || strHasSub pat rest

/-- Proposition: `s` is a contiguous substring of `l`. -/
def SubOf (s l : Str) : Prop := ∃ a b, l = a ++ s ++ b

theorem subOf_self (s : Str) : SubOf s s := ⟨[], [], by simp⟩

theorem subOf_app_right {s t : Str} (u : Str) (h : SubOf s t) : SubOf s (u ++ t) := by
  obtain ⟨a, b, rfl⟩ := h
  exact ⟨u ++ a, b, by simp⟩

theorem subOf_app_left {s t : Str} (u : Str) (h : SubOf s t) : SubOf s (t ++ u) := by
  obtain ⟨a, b, rfl⟩ := h
  exact ⟨a, b ++ u, by simp⟩

/-- Split a character list at every occurrence of a separator character. -/
def splitOnChar (sep : Char) : Str → List Str
  | [] => [[]]
  | c :: rest =>
    if c = sep then [] :: splitOnChar sep rest
    else
      match splitOnChar sep rest with
      | [] => [[c]]
      | p :: ps => (c :: p) :: ps

theorem length_dropWhile_le' {α} (p : α → Bool) (l : List α) :
    (l.dropWhile p).length ≤ l.length := by
  induction l with
  | nil => simp [List.dropWhile]
  | cons a l ih =>
    rw [List.dropWhile_cons]
    by_cases h : p a = true
    · simp only [h, if_true]
      exact Nat.le_succ_of_le ih
    · simp [h]

/-- Bool test for a sentence boundary: terminal punctuation followed by whitespace. -/
def sentBoundary (c : Char) (rest : List Char) : Bool :=
  (c = '.' || c = '!' || c = '?') &&
    (match rest with
     | r :: _ => isPySpace r
     | [] => false)

/-- Model of `re.split(r"(?<=[.!?])\s+", text)`: cut after a sentence-ending
punctuation character that is followed by a (maximal) whitespace run. The
fuel starts at the text length plus one, which every step consumes more
slowly than it consumes input, so the zero-fuel case is unreachable. -/
def splitSentGo : Nat → Str → List Char → List Str
  | 0, acc, _ => [acc.reverse]
  | _ + 1, acc, [] => [acc.reverse]
  | fuel + 1, acc, c :: rest =>
    if sentBoundary c rest then
      (c :: acc).reverse :: splitSentGo fuel [] (rest.dropWhile isPySpace)
    else
      splitSentGo fuel (c :: acc) rest

def splitSentences (text : Str) : List Str := splitSentGo (text.length + 1) [] text

/- ===================== JSON values and `json.loads` ===================== -/

/-- JSON values as produced by Python `json.loads`. Numeric literals keep
their source lexeme (the pipeline never computes with them). Objects are
association lists with unique keys (Python `dict`): duplicate keys in the
source text overwrite in place, as in CPython. -/
inductive Json where
  | null : Json
  | bool (b : Bool) : Json
  | num (lexeme : Str) : Json
  | str (s : Str) : Json
  | arr (items : List Json) : Json
  | obj (kvs : List (Str × Json)) : Json

/-- Python `dict` lookup. Keys are unique, so the first hit is the value. -/
def pyGet : List (Str × Json) → Str → Option Json
  | [], _ => none
  | (k', v) :: rest, k => if k' = k then some v else pyGet rest k

/-- Python `dict` item assignment: replace in place, else append. -/
def pyInsert : List (Str × Json) → Str → Json → List (Str × Json)
  | [], k, v => [(k, v)]
  | (k', v') :: rest, k, v =>
    if k' = k then (k', v) :: rest else (k', v') :: pyInsert rest k v

/-- Python `dict.setdefault`: insert the default only when the key is absent. -/
def pySetdefault (kvs : List (Str × Json)) (k : Str) (v : Json) : List (Str × Json) :=
  match pyGet kvs k with
  | some _ => kvs
  | none => kvs ++ [(k, v)]

/-- Whitespace skipped by the strict JSON grammar. -/
def isJsonWs (c : Char) : Bool := c = ' ' ∨ c = '\t' ∨ c = '\n' ∨ c = '\r'

def skipWs (l : List Char) : List Char := l.dropWhile isJsonWs

def escChar (e : Char) : Option Char :=
  if e = '"' then some '"'
  else if e = '\\' then some '\\'
  else if e = '/' then some '/'
  else if e = 'b' then some '\x08'
  else if e = 'f' then some '\x0c'
  else if e = 'n' then some '\n'
  else if e = 'r' then some '\r'
  else if e = 't' then some '\t'
  else none

def hexVal (c : Char) : Option Nat :=
  if '0' ≤ c ∧ c ≤ '9' then some (c.toNat - 48)
  else if 'a' ≤ c ∧ c ≤ 'f' then some (c.toNat - 87)
  else if 'A' ≤ c ∧ c ≤ 'F' then some (c.toNat - 55)
  else none

/-- JSON string body after the opening quote, with the standard escapes.
Strict mode: raw control characters are rejected. A `\u` escape becomes the
corresponding scalar (surrogate-pair recombination is not modelled; the
pipeline's payloads never use `\u` escapes). -/
def jsonString : List Char → Option (Str × List Char)
  | [] => none
  | c :: rest =>
    if c = '"' then some ([], rest)
    else if c = '\\' then
      match rest with
      | [] => none
      | e :: rest2 =>
        if e = 'u' then
          match rest2 with
          | h1 :: h2 :: h3 :: h4 :: rest3 =>
            match hexVal h1, hexVal h2, hexVal h3, hexVal h4 with
            | some a, some b, some c2, some d =>
              match jsonString rest3 with
              | some (s, r) => some (Char.ofNat (a * 4096 + b * 256 + c2 * 16 + d) :: s, r)
              | none => none
            | _, _, _, _ => none
          | _ => none
        else
          match escChar e with
          | some ch =>
            match jsonString rest2 with
            | some (s, r) => some (ch :: s, r)
            | none => none
          | none => none
    else if c.toNat < 32 then none
    else
      match jsonString rest with
      | some (s, r) => some (c :: s, r)
      | none => none

def digitSpan (l : List Char) : Str × List Char :=
  (l.takeWhile Char.isDigit, l.dropWhile Char.isDigit)

/-- Maximal-munch JSON number token (sign, integer part, optional fraction and
exponent); the lexeme is kept verbatim. Mirrors the `NUMBER_RE` tokenizer of
the Python decoder: a malformed tail (such as a bare trailing dot) is left
unconsumed and rejected by the surrounding grammar. -/
def jsonNumber (l : List Char) : Option (Str × List Char) :=
  let sgn : Str × List Char :=
    match l with
    | c :: r => if c = '-' then ([c], r) else ([], l)
    | [] => ([], l)
  match sgn.2 with
  | [] => none
  | c :: r =>
    if c.isDigit then
      let ip : Str × List Char := if c = '0' then ([c], r) else digitSpan sgn.2
      let fp : Str × List Char :=
        match ip.2 with
        | '.' :: r2 =>
          let ds := digitSpan r2
          if ds.1 = [] then ([], ip.2) else ('.' :: ds.1, ds.2)
        | _ => ([], ip.2)
      let ep : Str × List Char :=
        match fp.2 with
        | e :: r2 =>
          if e = 'e' ∨ e = 'E' then
            match r2 with
            | s2 :: r3 =>
              if s2 = '+' ∨ s2 = '-' then
                let ds := digitSpan r3
                if ds.1 = [] then ([], fp.2) else (e :: s2 :: ds.1, ds.2)
              else
                let ds := digitSpan r2
                if ds.1 = [] then ([], fp.2) else (e :: ds.1, ds.2)
            | [] => ([], fp.2)
          else ([], fp.2)
        | [] => ([], fp.2)
      some (sgn.1 ++ ip.1 ++ fp.1 ++ ep.1, ep.2)
    else none

mutual

/-- One JSON value with the fuel-bounded recursive-descent grammar of
`json.loads` (leading whitespace skipped; `NaN`/`Infinity` accepted as in
the default Python decoder). -/
def jsonVal : Nat → List Char → Option (Json × List Char)
  | 0, _ => none
  | fuel + 1, l =>
    let l := skipWs l
    match l with
    | [] => none
    | c :: rest =>
      if c = '"' then
        match jsonString rest with
        | some (s, r) => some (Json.str s, r)
        | none => none
      else if c = '{' then
        match skipWs rest with
        | '}' :: r => some (Json.obj [], r)
        | l2 => jsonMembers fuel l2 []
      else if c = '[' then
        match skipWs rest with
        | ']' :: r => some (Json.arr [], r)
        | l2 => jsonElems fuel l2 []
      else if strStarts (S "true") l then some (Json.bool true, l.drop 4)
      else if strStarts (S "false") l then some (Json.bool false, l.drop 5)
      else if strStarts (S "null") l then some (Json.null, l.drop 4)
      else if strStarts (S "NaN") l then some (Json.num (S "NaN"), l.drop 3)
      else if strStarts (S "Infinity") l then some (Json.num (S "Infinity"), l.drop 8)
      else if strStarts (S "-Infinity") l then some (Json.num (S "-Infinity"), l.drop 9)
      else
        match jsonNumber l with
        | some (lex, r) => some (Json.num lex, r)
        | none => none

/-- Array elements after the opening bracket (nonempty case). -/
def jsonElems : Nat → List Char → List Json → Option (Json × List Char)
  | 0, _, _ => none
  | fuel + 1, l, acc =>
    match jsonVal fuel l with
    | some (v, r) =>
      match skipWs r with
      | ',' :: r2 => jsonElems fuel r2 (acc ++ [v])
      | ']' :: r2 => some (Json.arr (acc ++ [v]), r2)
      | _ => none
    | none => none

/-- Object members after the opening brace (nonempty case). Duplicate keys
overwrite in place, as Python `dict` assignment does. -/
def jsonMembers : Nat → List Char → List (Str × Json) → Option (Json × List Char)
  | 0, _, _ => none
  | fuel + 1, l, acc =>
    match skipWs l with
    | '"' :: r =>
      match jsonString r with
      | some (k, r2) =>
        match skipWs r2 with
        | ':' :: r3 =>
          match jsonVal fuel r3 with
          | some (v, r4) =>
            match skipWs r4 with
            | ',' :: r5 => jsonMembers fuel r5 (pyInsert acc k v)
            | '}' :: r5 => some (Json.obj (pyInsert acc k v), r5)
            | _ => none
          | none => none
        | _ => none
      | none => none
    | _ => none

end

/-- Model of `json.loads`: parse one value and require only trailing
whitespace after it ("Extra data" is a failure). `none` stands for a raised
`JSONDecodeError`. -/
def json_loads (text : Str) : Option Json :=
  match jsonVal (2 * text.length + 8) text with
  | some (v, rest) => if skipWs rest = [] then some v else none
  | none => none

/- ===================== Structured-result parser ===================== -/

/-- Everything of `l` up to and including the last occurrence of `ch`. -/
def upToLast (ch : Char) (l : List Char) : List Char :=
  ((l.reverse).dropWhile (fun c => ¬ c = ch)).reverse

/-- Model of `re.search(r"(\{[\s\S]*\}|\[[\s\S]*\])", text)`: at the leftmost
position holding an opening brace (tried first) or bracket with a matching
closer somewhere to its right, the greedy `[\s\S]*` extends the match to the
last such closer in the whole text. -/
def regexCandidate : Str → Option Str
  | [] => none
  | c :: rest =>
    if c = '{' ∧ '}' ∈ rest then some (c :: upToLast '}' rest)
    else if c = '[' ∧ ']' ∈ rest then some (c :: upToLast ']' rest)
    else regexCandidate rest

/-- The structured-result parser `parse_json_safe` from src/utils.py.
Empty text returns the default (`if not text`); then the whole text is tried
strictly; then the single greedy regex candidate; any failure yields the
caller-supplied default, never an exception. -/
def parse_json_safe (text : Str) (default : Json) : Json :=
  if text = [] then default
  else
    match json_loads text with
    | some v => v
    | none =>
      match regexCandidate text with
      | some cand =>
        match json_loads cand with
        | some v => v
        | none => default
      | none => default

/-- Shortest balanced brace/bracket span starting at the head of `l`
(depth counting over all of `{}[]`, per the spec's wording). -/
def balancedGo : List Char → Nat → Str → Option Str
  | [], _, _ => none
  | c :: rest, depth, acc =>
    if c = '{' ∨ c = '[' then balancedGo rest (depth + 1) (c :: acc)
    else if c = '}' ∨ c = ']' then
      match depth with
      | 0 => none
      | 1 => some (c :: acc).reverse
      | d + 2 => balancedGo rest (d + 1) (c :: acc)
    else balancedGo rest depth (c :: acc)

/-- Modelled from the spec: "scan the text for the first substring that looks
like a complete structured-data literal (balanced braces/brackets)". -/
def firstBalanced : Str → Option Str
  | [] => none
  | c :: rest =>
    if c = '{' ∨ c = '[' then
      match balancedGo (c :: rest) 0 [] with
      | some span => some span
      | none => firstBalanced rest
    else firstBalanced rest

/-- Modelled from the spec: the strategy of §4.1 as literally described —
(a) strict whole-text parse, (b) parse of the first complete balanced
brace/bracket literal substring, (c) the caller-supplied default. For
comparison with `parse_json_safe`, which is translated from the source. -/
def parse_json_spec (text : Str) (default : Json) : Json :=
  match json_loads text with
  | some v => v
  | none =>
    match firstBalanced text with
    | some cand =>
      match json_loads cand with
      | some v => v
      | none => default
    | none => default

mutual

/-- Python `repr` of a parsed JSON value, used by `str()` on containers.
Approximation for the stray cases the pipeline never exercises: strings are
quoted without re-escaping and numeric lexemes are shown verbatim. -/
def pyReprJ : Json → Str
  | Json.null => S "None"
  | Json.bool true => S "True"
  | Json.bool false => S "False"
  | Json.num l => l
  | Json.str s => Char.ofNat 39 :: s ++ [Char.ofNat 39]
  | Json.arr xs => S "[" ++ List.intercalate (S ", ") (pyReprList xs) ++ S "]"
  | Json.obj kvs => S "\x7b" ++ List.intercalate (S ", ") (pyReprKvs kvs) ++ S "\x7d"

/-- Helper: `repr` of each element of a JSON array. -/
def pyReprList : List Json → List Str
  | [] => []
  | x :: xs => pyReprJ x :: pyReprList xs

/-- Helper: `repr` of each `key: value` member of a JSON object. -/
def pyReprKvs : List (Str × Json) → List Str
  | [] => []
  | (k, v) :: rest =>
    (Char.ofNat 39 :: k ++ [Char.ofNat 39] ++ S ": " ++ pyReprJ v) :: pyReprKvs rest

end

/-- Python `str()` of a parsed JSON value (as in the f-string `f"- {t}"`). -/
def pyStr : Json → Str
  | Json.str s => s
  | j => pyReprJ j

/- ===================== Typed payload records (src/schemas.py) ===================== -/

/-- `Company` from src/schemas.py. -/
structure Company where
  name : Str
  website : Str
  why_fit : Str
deriving DecidableEq

/-- `CompaniesPayload` from src/schemas.py (`companies` defaults to `[]`). -/
structure CompaniesPayload where
  companies : List Company := []
deriving DecidableEq

/-- `Contact` from src/schemas.py: `email`/`source` default `None`, `inferred`
defaults `False` (an explicit JSON `null` yields `none`). -/
structure Contact where
  name : Str
  role : Str
  email : Option Str := none
  inferred : Option Bool := some false
  source : Option Str := none
deriving DecidableEq

/-- `ContactsPerCompany` from src/schemas.py. -/
structure ContactsPerCompany where
  company : Str
  contacts : List Contact := []
deriving DecidableEq

/-- `ContactsPayload` from src/schemas.py. -/
structure ContactsPayload where
  companies : List ContactsPerCompany := []
deriving DecidableEq

/-- `ResearchPerCompany` from src/schemas.py. -/
structure ResearchPerCompany where
  company : Str
  insights : List Str := []
deriving DecidableEq

/-- `ResearchPayload` from src/schemas.py. -/
structure ResearchPayload where
  companies : List ResearchPerCompany := []
deriving DecidableEq

/-- `EmailItem` from src/schemas.py: exactly the four string fields; a
`followups` key in the raw record is not part of the typed schema. -/
structure EmailItem where
  company : Str
  contact : Str
  subject : Str
  body : Str
deriving DecidableEq

/-- `EmailsPayload` from src/schemas.py. -/
structure EmailsPayload where
  emails : List EmailItem := []
deriving DecidableEq

/- Pydantic validation of parsed JSON into the typed records. A required
string field accepts exactly a JSON string; `Optional` fields accept `null`;
extra keys are ignored (the default pydantic model config). `none` stands for
a raised `ValidationError`. Pydantic's lax numeric/string coercions are not
exercised by the pipeline and are not modelled. -/

/-- Option-valued traversal in list order (pydantic validates items in
order; the first failure raises `ValidationError`). -/
def omapM {α β : Type} (f : α → Option β) : List α → Option (List β)
  | [] => some []
  | x :: xs =>
    match f x with
    | none => none
    | some y =>
      match omapM f xs with
      | none => none
      | some ys => some (y :: ys)

def validateCompany : Json → Option Company
  | Json.obj kvs =>
    match pyGet kvs (S "name"), pyGet kvs (S "website"), pyGet kvs (S "why_fit") with
    | some (Json.str n), some (Json.str w), some (Json.str f) => some ⟨n, w, f⟩
    | _, _, _ => none
  | _ => none

/-- `CompaniesPayload(**data)` for a parsed JSON object `data`. -/
def validateCompaniesKw (kvs : List (Str × Json)) : Option CompaniesPayload :=
  match pyGet kvs (S "companies") with
  | none => some ⟨[]⟩
  | some (Json.arr l) => (omapM validateCompany l).map CompaniesPayload.mk
  | some _ => none

def validateOptStr : Option Json → Option (Option Str)
  | none => some none
  | some Json.null => some none
  | some (Json.str s) => some (some s)
  | some _ => none

def validateContact : Json → Option Contact
  | Json.obj kvs =>
    match pyGet kvs (S "name"), pyGet kvs (S "role") with
    | some (Json.str n), some (Json.str r) =>
      match validateOptStr (pyGet kvs (S "email")),
            validateOptStr (pyGet kvs (S "source")) with
      | some em, some src =>
        match pyGet kvs (S "inferred") with
        | none => some ⟨n, r, em, some false, src⟩
        | some Json.null => some ⟨n, r, em, none, src⟩
        | some (Json.bool b) => some ⟨n, r, em, some b, src⟩
        | some _ => none
      | _, _ => none
    | _, _ => none
  | _ => none

def validateContactsPerCompany : Json → Option ContactsPerCompany
  | Json.obj kvs =>
    match pyGet kvs (S "company") with
    | some (Json.str c) =>
      match pyGet kvs (S "contacts") with
      | none => some ⟨c, []⟩
      | some (Json.arr l) => (omapM validateContact l).map (ContactsPerCompany.mk c)
      | some _ => none
    | _ => none
  | _ => none

/-- `ContactsPayload(**data)` for a parsed JSON object `data`. -/
def validateContactsKw (kvs : List (Str × Json)) : Option ContactsPayload :=
  match pyGet kvs (S "companies") with
  | none => some ⟨[]⟩
  | some (Json.arr l) => (omapM validateContactsPerCompany l).map ContactsPayload.mk
  | some _ => none

def validateStr : Json → Option Str
  | Json.str s => some s
  | _ => none

def validateResearchPerCompany : Json → Option ResearchPerCompany
  | Json.obj kvs =>
    match pyGet kvs (S "company") with
    | some (Json.str c) =>
      match pyGet kvs (S "insights") with
      | none => some ⟨c, []⟩
      | some (Json.arr l) => (omapM validateStr l).map (ResearchPerCompany.mk c)
      | some _ => none
    | _ => none
  | _ => none

/-- `ResearchPayload(**data)` for a parsed JSON object `data`. -/
def validateResearchKw (kvs : List (Str × Json)) : Option ResearchPayload :=
  match pyGet kvs (S "companies") with
  | none => some ⟨[]⟩
  | some (Json.arr l) => (omapM validateResearchPerCompany l).map ResearchPayload.mk
  | some _ => none

def validateEmailItem : Json → Option EmailItem
  | Json.obj kvs =>
    match pyGet kvs (S "company"), pyGet kvs (S "contact"),
          pyGet kvs (S "subject"), pyGet kvs (S "body") with
    | some (Json.str c), some (Json.str ct), some (Json.str sj), some (Json.str b) =>
      some ⟨c, ct, sj, b⟩
    | _, _, _, _ => none
  | _ => none

/- ===================== Text extraction and normalization (src/utils.py) ===================== -/

/-- Host part of the first `https?://host` occurrence in `url` (the regex
`https?://([^/]+)` of `_domain`); the url itself when there is no match. -/
def hostOf (l : Str) : Option Str :=
  let h := l.takeWhile (fun c => ¬ c = '/')
  if h = [] then none else some h

def domTry (l : List Char) : Option Str :=
  if strStarts (S "https://") l then hostOf (l.drop 8)
  else if strStarts (S "http://") l then hostOf (l.drop 7)
  else none

def domGo : List Char → Option Str
  | [] => none
  | c :: rest =>
    match domTry (c :: rest) with
    | some h => some h
    | none => domGo rest

/-- `_domain` from src/utils.py. -/
def pyDomain (url : Str) : Str := (domGo url).getD url

/-- Python `str.capitalize()`: first character uppercased, the rest lowered. -/
def pyCapitalize : Str → Str
  | [] => []
  | c :: cs => c.toUpper :: cs.map Char.toLower

/-- `_brand_from_domain` from src/utils.py. -/
def brandFromDomain (domain : Str) : Str :=
  let parts := (splitOnChar '.' domain).filter
    (fun p => ¬ p = [] ∧ ¬ lowerStr p = S "www")
  match parts.reverse with
  | _ :: p2 :: _ => pyCapitalize p2
  | [p1] => pyCapitalize p1
  | [] => domain

/-- Bool test for `re.sub(r"\s*[-|•].*$", ...)`: does a separator (preceded by
optional whitespace) start at the head of `l`? -/
def sepAt (l : List Char) : Bool :=
  match l.dropWhile isPySpace with
  | c :: _ => c = '-' ∨ c = '|' ∨ c = '•'
  | [] => false

/-- `re.sub(r"\s*[-|•].*$", "", title)`: cut from the first whitespace-padded
separator to the end (the stray interior-newline corner of `$`, impossible for
result titles, is not modelled). -/
def sepCut : List Char → List Char
  | [] => []
  | c :: rest => if sepAt (c :: rest) then [] else c :: sepCut rest

/-- The noise pattern of `_infer_company_name`: `cookie|privacy|terms|login`, case-insensitive. -/
def nameNoise (s : Str) : Bool :=
  [S "cookie", S "privacy", S "terms", S "login"].any
    (fun w => strHasSub w (lowerStr s))

/-- `_infer_company_name` from src/utils.py. -/
def inferCompanyName (title url : Str) : Str :=
  if ¬ title = [] then
    let clean := pyStrip (sepCut title)
    if ¬ clean = [] ∧ ¬ lowerStr clean = S "home" ∧ ¬ lowerStr clean = S "welcome" ∧
        nameNoise clean = false then
      clean
    else brandFromDomain (pyDomain url)
  else brandFromDomain (pyDomain url)

/-- `_BAD_SNIPPET_RE` from src/utils.py, case-insensitive. -/
def badSnippet (s : Str) : Bool :=
  [S "cookie", S "privacy", S "terms", S "javascript", S "enable",
   S "old browser", S "support", S "consent"].any
    (fun w => strHasSub w (lowerStr s))

/-- `_FASHION_WORDS` from src/utils.py, case-insensitive (`e-?commerce` covers
both spellings). -/
def fashionSearch (s : Str) : Bool :=
  [S "trend", S "collection", S "assort", S "buying", S "merchand", S "retail",
   S "fashion", S "brand", S "e-commerce", S "ecommerce", S "pricing", S "sell",
   S "sku", S "inventory", S "season"].any
    (fun w => strHasSub w (lowerStr s))

/-- The generic `why_fit` fallback sentence of src/utils.py. -/
def whyFallback : Str := S "Retailer/brand with ecommerce; matches targeting."

/-- `_clean_why_fit` from src/utils.py. -/
def cleanWhyFit (text fallback : Str) : Str :=
  if text = [] ∨ badSnippet text = true then fallback
  else (pyStrip text).take 160

/-- `_excluded` from src/utils.py: the lowered domain ends with a lowered
exclusion entry, or contains the hard-coded substring `livetrend`. -/
def pyExcluded (domain : Str) (exclude_domains : List Str) : Bool :=
  exclude_domains.any (fun ex => strEnds (lowerStr ex) (lowerStr domain)) ||
    strHasSub (S "livetrend") (lowerStr domain)

/-- Skip test of `_extract_key_points`: a brand was given (and is nonempty,
Python truthiness), the lowered sentence does not mention it, and no fashion
keyword occurs. -/
def ekpSkip (brand : Option Str) (ls : Str) : Bool :=
  match brand with
  | some b => ¬ b = [] && ¬ strHasSub (lowerStr b) ls && ¬ fashionSearch ls
  | none => false

def ekpGo (brand : Option Str) : List Str → List Str
  | [] => []
  | s :: ss =>
    let ls := lowerStr s
    if ekpSkip brand ls then ekpGo brand ss
    else if 40 ≤ s.length ∧ s.length ≤ 200 then pyStrip s :: ekpGo brand ss
    else ekpGo brand ss

/-- `_extract_key_points` from src/utils.py: sentence split, brand/keyword
filter, the 40–200 length window (checked before `strip`), first four kept. -/
def extractKeyPoints (text : Str) (brand : Option Str) : List Str :=
  (ekpGo brand (splitSentences text)).take 4

/-- `_infer_person_from_title` from src/livetrend_outreach_demo.py (referenced
from src/utils.py): `re.match(r"([A-Z][a-zA-Z]+\s+[A-Z][a-zA-Z]+)", title)`. -/
def inferPersonFromTitle (title : Str) : Option Str :=
  match title with
  | c :: rest =>
    if c.isUpper then
      let w1 := rest.takeWhile Char.isAlpha
      if w1 = [] then none
      else
        let r1 := rest.dropWhile Char.isAlpha
        let ws := r1.takeWhile isPySpace
        if ws = [] then none
        else
          match r1.dropWhile isPySpace with
          | c2 :: rest2 =>
            if c2.isUpper then
              let w2 := rest2.takeWhile Char.isAlpha
              if w2 = [] then none
              else some (c :: w1 ++ ws ++ c2 :: w2)
            else none
          | [] => none
    else none
  | [] => none

/-- `_infer_email` from src/livetrend_outreach_demo.py (referenced from
src/utils.py): `first.last@domain`, lowercased. -/
def inferEmail (person domain : Str) : Option Str :=
  if person = [] ∨ domain = [] then none
  else
    let parts := splitOnChar ' ' person
    let first := parts.headD []
    let last := (parts.reverse).headD []
    some (lowerStr (first ++ [('.' : Char)] ++ last) ++ [('@' : Char)] ++ lowerStr domain)

/-- `normalize_companies` worker loop: domain exclusion and first-seen
deduplication, then name/why_fit normalization and the fashion-keyword gate
(the domain is marked seen before that gate, as in the source). -/
def normalizeGo (excl : List Str) : List Company → List Str → List Company
  | [], _ => []
  | c :: cs, seen =>
    let d := pyDomain c.website
    if pyExcluded d excl = true ∨ d ∈ seen then normalizeGo excl cs seen
    else
      let name := inferCompanyName c.name c.website
      let why := cleanWhyFit c.why_fit whyFallback
      if fashionSearch (c.why_fit ++ S " " ++ name) = false then
        normalizeGo excl cs (d :: seen)
      else ⟨name, c.website, why⟩ :: normalizeGo excl cs (d :: seen)

/-- `normalize_companies` from src/utils.py. -/
def normalize_companies (payload : CompaniesPayload) (excl : List Str) : CompaniesPayload :=
  ⟨normalizeGo excl payload.companies []⟩

/-- `clean_research` inner deduplication: first occurrence wins, keyed by the
stripped, lowered sentence. -/
def cleanGo : List Str → List Str → List Str
  | [], _ => []
  | p :: ps, seen =>
    let k := lowerStr (pyStrip p)
    if k ∈ seen then cleanGo ps seen else p :: cleanGo ps (k :: seen)

/-- `clean_research` from src/utils.py: drop noise-pattern sentences, require a
fashion keyword, deduplicate, keep at most four per company. -/
def clean_research (payload : ResearchPayload) : ResearchPayload :=
  ⟨payload.companies.map (fun rc =>
    let filtered := rc.insights.filter
      (fun p => badSnippet p = false ∧ fashionSearch p = true)
    ⟨rc.company, (cleanGo filtered []).take 4⟩)⟩

/- ===================== External search capability (Exa) ===================== -/

/-- One search result: url/title/text, with the empty string standing for a
missing field (the source coalesces missing attributes with `or ""`). -/
structure ExaResult where
  url : Str
  title : Str
  text : Str

/-- The external search capability. `Except.error` stands for a raised
exception, which every caller in src/utils.py catches locally. The
`.results`-attribute unwrapping of the source is folded into returning the
result list directly. -/
structure ExaClient where
  search_and_contents : Str → Nat → Except Unit (List ExaResult)
  search : Str → Nat → Except Unit (List ExaResult)

/-- Python `text or title`: the first operand unless it is empty/falsy. -/
def pyOr (a b : Str) : Str := if a = [] then b else a

/-- `discover_companies_via_exa` result loop: exclusion and first-seen domain
deduplication, name/why_fit extraction, fashion-keyword gate, and the
post-append `len(companies) >= limit` break. -/
def exaCollect (excl : List Str) (limit : Nat) :
    List ExaResult → List Str → Nat → List Company
  | [], _, _ => []
  | r :: rs, seen, cnt =>
    let domain := pyDomain r.url
    if pyExcluded domain excl = true ∨ domain ∈ seen then
      exaCollect excl limit rs seen cnt
    else
      let name := inferCompanyName r.title r.url
      let why := cleanWhyFit (pyOr r.text r.title) whyFallback
      if fashionSearch (pyOr r.text r.title) = false then
        exaCollect excl limit rs (domain :: seen) cnt
      else
        let comp : Company := ⟨name, r.url, why⟩
        if limit ≤ cnt + 1 then [comp]
        else comp :: exaCollect excl limit rs (domain :: seen) (cnt + 1)

/-- The fixed company-discovery query of `discover_companies_via_exa`. -/
def exaCompanyQuery (target_desc : Str) : Str :=
  S "(fashion retailer OR apparel brand) site:*.com (buying OR merchandising OR ecommerce) -site:livetrend.co -cookie -privacy -terms -login -support — " ++
    target_desc

/-- `discover_companies_via_exa` from src/utils.py. `exa = none` models an
unavailable capability (`_get_exa()` returned `None`); `search_and_contents`
failure falls back to `search`, and a second failure yields an empty payload. -/
def discover_companies_via_exa (exa : Option ExaClient) (target_desc offering_desc : Str)
    (limit : Nat) (exclude_domains : List Str) : CompaniesPayload :=
  match exa with
  | none => ⟨[]⟩
  | some client =>
    let query := exaCompanyQuery target_desc
    match client.search_and_contents query (limit * 2) with
    | Except.ok items => ⟨exaCollect exclude_domains limit items [] 0⟩
    | Except.error _ =>
      match client.search query (limit * 2) with
      | Except.ok items => ⟨exaCollect exclude_domains limit items [] 0⟩
      | Except.error _ => ⟨[]⟩

/-- The fixed, priority-ordered role list of `find_contacts_via_exa`. -/
def contactRoles : List Str :=
  [S "Head of Buying", S "Merchandising Director", S "VP Merchandising",
   S "GTM Lead", S "Partnerships Manager", S "Product Marketing", S "Founder"]

/-- One role attempt of `find_contacts_via_exa`. The loop body references
`_infer_person_from_title`, a name that src/utils.py neither defines nor
imports, so processing any nonempty result list raises `NameError` before a
contact can be appended; the blanket `except Exception: continue` swallows it
(`Except.error` covers both this and a failing search call). -/
def contactTryRole (client : ExaClient) (q : Str) (contacts : List Contact) :
    Except Unit (List Contact) :=
  match client.search q 2 with
  | Except.error _ => Except.error ()
  | Except.ok [] => Except.ok contacts
  | Except.ok (_ :: _) => Except.error ()

/-- Role loop of `find_contacts_via_exa`: on an exception `continue` skips the
early-exit check; otherwise stop once two contacts have accumulated. -/
def contactsLoop (client : ExaClient) (brand : Str) :
    List Str → List Contact → List Contact
  | [], contacts => contacts
  | role :: roles, contacts =>
    let q := role ++ S " " ++ brand ++ S " email OR contact"
    match contactTryRole client q contacts with
    | Except.error _ => contactsLoop client brand roles contacts
    | Except.ok contacts2 =>
      if 2 ≤ contacts2.length then contacts2
      else contactsLoop client brand roles contacts2

/-- `find_contacts_via_exa` from src/utils.py: one entry per company, contacts
truncated with `[:2]`. -/
def find_contacts_via_exa (exa : Option ExaClient) (companies : CompaniesPayload) :
    ContactsPayload :=
  match exa with
  | none => ⟨[]⟩
  | some client =>
    ⟨companies.companies.map (fun c =>
      let domain := pyDomain c.website
      let brand := brandFromDomain domain
      let contacts := contactsLoop client brand contactRoles []
      ⟨c.name, contacts.take 2⟩)⟩

/-- Per-point deduplicating append of `collect_research_via_exa`
(`if pt not in insights: insights.append(pt)`). -/
def dedupAdd : List Str → List Str → List Str
  | ins, [] => ins
  | ins, pt :: pts => dedupAdd (if pt ∈ ins then ins else ins ++ [pt]) pts

/-- Result loop of `collect_research_via_exa` for one query. -/
def researchItems (brand : Str) : List ExaResult → List Str → List Str
  | [], ins => ins
  | r :: rs, ins =>
    researchItems brand rs (dedupAdd ins (extractKeyPoints r.text (some brand)))

/-- Query loop of `collect_research_via_exa`: a failing search aborts only the
current query. -/
def researchQueries (client : ExaClient) (brand : Str) :
    List Str → List Str → List Str
  | [], ins => ins
  | q :: qs, ins =>
    match client.search_and_contents q 3 with
    | Except.error _ => researchQueries client brand qs ins
    | Except.ok items => researchQueries client brand qs (researchItems brand items ins)

/-- `collect_research_via_exa` from src/utils.py: two queries per company,
deduplicated insights truncated with `[:4]`. -/
def collect_research_via_exa (exa : Option ExaClient) (companies : CompaniesPayload) :
    ResearchPayload :=
  match exa with
  | none => ⟨[]⟩
  | some client =>
    ⟨companies.companies.map (fun c =>
      let domain := pyDomain c.website
      let brand := brandFromDomain domain
      let queries := [S "site:" ++ domain ++ S " (about OR team OR blog)",
                      S "site:reddit.com " ++ brand]
      let insights := researchQueries client brand queries []
      ⟨c.name, insights.take 4⟩)⟩

/- ===================== Stage pipeline (src/pipeline.py) ===================== -/

/-- The retry loop shared by the four agent-backed stages
(`while attempt <= max(1, retries)` with an early break on a nonempty
payload). `responses` are the agent's texts for attempts `0, 1, …`; the
second component counts the `agent.run` invocations actually performed.
`Except.error` models an exception escaping the loop body uncaught. -/
def retryLoop {α} (parse : Str → Except Unit (List α)) :
    List Str → Except Unit (List α) × Nat
  | [] => (Except.ok [], 0)
  | t :: rest =>
    match parse t with
    | Except.error e => (Except.error e, 1)
    | Except.ok [] =>
      let r := retryLoop parse rest
      (r.1, r.2 + 1)
    | Except.ok (x :: xs) => (Except.ok (x :: xs), 1)

/-- The agent's response texts for the `max(1, retries) + 1` loop iterations.
The agent is an opaque capability: the stage re-sends an identical prompt, so
a response is a function of the attempt index alone (`response_text`
extraction is folded into the returned text). -/
def stageResponses (agent : Nat → Str) (retries : Nat) : List Str :=
  (List.range (max 1 retries + 1)).map agent

/-- The parse default `{"companies": []}` shared by three stages. -/
def companiesDefault : Json := Json.obj [(S "companies", Json.arr [])]

/-- One attempt of `run_company_finder`: parse leniently, then validate;
a `ValidationError` resets the payload to empty. A non-mapping parse result
would make `CompaniesPayload(**data)` raise `TypeError` uncaught. -/
def companyParse (text : Str) : Except Unit (List Company) :=
  match parse_json_safe text companiesDefault with
  | Json.obj kvs => Except.ok ((validateCompaniesKw kvs).getD ⟨[]⟩).companies
  | _ => Except.error ()

/-- Number of `agent.run` calls made by `run_company_finder`. -/
def run_company_finder_calls (agent : Nat → Str) (retries : Nat) : Nat :=
  (retryLoop companyParse (stageResponses agent retries)).2

/-- `run_company_finder` from src/pipeline.py: retry loop, Exa fallback with
the hard-coded `["livetrend.co"]` exclusion, then normalization of any
nonempty payload. -/
def run_company_finder (agent : Nat → Str) (exa : Option ExaClient)
    (target_desc offering_desc : Str) (num_companies : Nat)
    (retries : Nat) (allow_fallbacks : Bool) : Except Unit CompaniesPayload :=
  match (retryLoop companyParse (stageResponses agent retries)).1 with
  | Except.error e => Except.error e
  | Except.ok cs =>
    let payload : CompaniesPayload := ⟨cs⟩
    let payload :=
      if payload.companies = [] ∧ allow_fallbacks = true then
        discover_companies_via_exa exa target_desc offering_desc num_companies
          [S "livetrend.co"]
      else payload
    Except.ok
      (if ¬ payload.companies = [] then normalize_companies payload [S "livetrend.co"]
       else payload)

/-- One attempt of `run_contact_finder` (same shape as `companyParse`). -/
def contactParse (text : Str) : Except Unit (List ContactsPerCompany) :=
  match parse_json_safe text companiesDefault with
  | Json.obj kvs => Except.ok ((validateContactsKw kvs).getD ⟨[]⟩).companies
  | _ => Except.error ()

/-- Number of `agent.run` calls made by `run_contact_finder`. -/
def run_contact_finder_calls (agent : Nat → Str) (retries : Nat) : Nat :=
  (retryLoop contactParse (stageResponses agent retries)).2

/-- `run_contact_finder` from src/pipeline.py. The upstream companies payload
feeds the prompt and the Exa fallback; the loop itself runs regardless of
whether it is empty. -/
def run_contact_finder (agent : Nat → Str) (exa : Option ExaClient)
    (companies : CompaniesPayload) (target_desc offering_desc : Str)
    (retries : Nat) (allow_fallbacks : Bool) : Except Unit ContactsPayload :=
  match (retryLoop contactParse (stageResponses agent retries)).1 with
  | Except.error e => Except.error e
  | Except.ok cs =>
    if cs = [] ∧ allow_fallbacks = true then
      Except.ok (find_contacts_via_exa exa companies)
    else Except.ok ⟨cs⟩

/-- One attempt of `run_research` (same shape as `companyParse`). -/
def researchParse (text : Str) : Except Unit (List ResearchPerCompany) :=
  match parse_json_safe text companiesDefault with
  | Json.obj kvs => Except.ok ((validateResearchKw kvs).getD ⟨[]⟩).companies
  | _ => Except.error ()

/-- Number of `agent.run` calls made by `run_research`. -/
def run_research_calls (agent : Nat → Str) (retries : Nat) : Nat :=
  (retryLoop researchParse (stageResponses agent retries)).2

/-- `run_research` from src/pipeline.py: retry loop, Exa fallback, then
`clean_research` on any nonempty payload. -/
def run_research (agent : Nat → Str) (exa : Option ExaClient)
    (companies : CompaniesPayload) (retries : Nat) (allow_fallbacks : Bool) :
    Except Unit ResearchPayload :=
  match (retryLoop researchParse (stageResponses agent retries)).1 with
  | Except.error e => Except.error e
  | Except.ok rs =>
    let payload : ResearchPayload := ⟨rs⟩
    let payload :=
      if payload.companies = [] ∧ allow_fallbacks = true then
        collect_research_via_exa exa companies
      else payload
    Except.ok (if ¬ payload.companies = [] then clean_research payload else payload)

/-- The parse default `{"emails": []}` of the email stage. -/
def emailsDefault : Json := Json.obj [(S "emails", Json.arr [])]

/-- The joined follow-up lines: `"\n".join(f"- {t}" for t in fus)`. -/
def joinFollowups (fus : List Json) : Str :=
  List.intercalate (S "\n") (fus.map (fun t => S "- " ++ pyStr t))

/-- The pre-validation followups merge of `run_email_writer`: when a record
holds a nonempty `followups` list, the rendered block is appended to `body`
(an absent `body` counts as `""`; a non-string `body` would raise `TypeError`
on `+`, uncaught). An empty or non-list `followups` value leaves the record
untouched, and so does a non-dict record. -/
def mergeFollowups (e : Json) : Except Unit Json :=
  match e with
  | Json.obj kvs =>
    match pyGet kvs (S "followups") with
    | some (Json.arr (f :: fs)) =>
      match (pyGet kvs (S "body")).getD (Json.str []) with
      | Json.str b =>
        Except.ok (Json.obj (pyInsert kvs (S "body")
          (Json.str (b ++ S "\n\n---\nFollow-ups:\n" ++ joinFollowups (f :: fs)))))
      | _ => Except.error ()
    | _ => Except.ok e
  | _ => Except.ok e

/-- The `e.setdefault("company", …)` / `e.setdefault("contact", …)` pass of
`run_email_writer`; a non-dict list element raises `AttributeError`, which the
`except ValidationError` clause does not catch. -/
def setContactDefaults (e : Json) : Except Unit Json :=
  match e with
  | Json.obj kvs =>
    Except.ok (Json.obj
      (pySetdefault (pySetdefault kvs (S "company") (Json.str []))
        (S "contact") (Json.str [])))
  | _ => Except.error ()

/-- `Except`-valued traversal in list order (Python loop semantics: the first
exception aborts everything). -/
def exTraverse {α β} (f : α → Except Unit β) : List α → Except Unit (List β)
  | [] => Except.ok []
  | x :: xs =>
    match f x with
    | Except.error e => Except.error e
    | Except.ok y =>
      match exTraverse f xs with
      | Except.error e => Except.error e
      | Except.ok ys => Except.ok (y :: ys)

/-- Post-parse processing of one email-stage attempt on the parsed `data`:
followups merge, contact defaults, then `EmailsPayload(**data)` validation
(a `ValidationError` resets to the empty list). A missing `emails` key
validates to the empty payload; a non-mapping `data` or a non-list `emails`
value would raise uncaught (`AttributeError`/`TypeError`). -/
def emailsFromData (data : Json) : Except Unit (List EmailItem) :=
  match data with
  | Json.obj kvs =>
    match pyGet kvs (S "emails") with
    | none => Except.ok []
    | some (Json.arr es) =>
      match exTraverse mergeFollowups es with
      | Except.error e => Except.error e
      | Except.ok es2 =>
        match exTraverse setContactDefaults es2 with
        | Except.error e => Except.error e
        | Except.ok es3 => Except.ok ((omapM validateEmailItem es3).getD [])
    | some _ => Except.error ()
  | _ => Except.error ()

/-- One attempt of `run_email_writer`. -/
def emailParse (text : Str) : Except Unit (List EmailItem) :=
  emailsFromData (parse_json_safe text emailsDefault)

/-- Number of `agent.run` calls made by `run_email_writer`. -/
def run_email_writer_calls (agent : Nat → Str) (retries : Nat) : Nat :=
  (retryLoop emailParse (stageResponses agent retries)).2

/-- The sender dict of the orchestration layer: `name`/`company` keys, either
of which may be absent (`dict.get` with a default covers the reads). -/
structure Sender where
  name : Option Str := none
  company : Option Str := none

/-- The style-hint table of `generate_template_emails`
(`.get(style, "ton professionnel")`). -/
def styleHint (style : Str) : Str :=
  if style = S "Professional" then S "ton professionnel, clair et concis"
  else if style = S "Casual" then S "ton amical et conversationnel"
  else if style = S "Cold" then S "ton direct et orienté ROI"
  else if style = S "Consultative" then S "ton consultatif et orienté diagnostic"
  else S "ton professionnel"

/-- Python dict built by a comprehension: later duplicate keys overwrite, so a
lookup returns the last binding. -/
def pyDictGet {β} (pairs : List (Str × β)) (k : Str) : Option β :=
  pairs.foldl (fun acc p => if p.1 = k then some p.2 else acc) none

/-- `company_to_contacts.get(comp.name) or [Contact(name="Équipe", role="Team")]`:
the placeholder applies when the company is absent or its contact list is
empty (Python falsiness). -/
def templateTargets (contacts : ContactsPayload) (compName : Str) : List Contact :=
  match pyDictGet (contacts.companies.map (fun c => (c.company, c.contacts))) compName with
  | some (ct :: cts) => ct :: cts
  | _ => [⟨S "Équipe", S "Team", none, some false, none⟩]

/-- `research_map.get(comp.name) or []` followed by the noise filter. -/
def templateInsights (research : ResearchPayload) (compName : Str) : List Str :=
  let ins :=
    match pyDictGet (research.companies.map (fun r => (r.company, r.insights))) compName with
    | some l => l
    | none => []
  ins.filter (fun p => badSnippet p = false)

/-- The `ins_text` block of `generate_template_emails`. -/
def templateInsText (ins : List Str) : Str :=
  if ins = [] then S "\n- Observation marché pertinente"
  else S "\n- " ++ List.intercalate (S "\n- ") (ins.take 2)

/-- The fixed subject line of `generate_template_emails`. -/
def templateSubject (brand : Str) : Str :=
  brand ++ S " — booster vos décisions d'achat avec la data"

/-- The canned body of `generate_template_emails`, with the sender fields read
via `sender.get('name','')` and `sender.get('company','Livetrend')`. -/
def templateBody (ctName styleH senderCompanyD brand insText senderNameD : Str) : Str :=
  S "Bonjour " ++ ctName ++ S ",\n\n" ++
  S "Je me permets de vous contacter (– " ++ styleH ++ S ") au nom de " ++
  senderCompanyD ++ S ". " ++
  S "Nous aidons les équipes buying/merchandising à construire des collections best-sellers grâce à :\n" ++
  S "- analyses de tendances data-driven\n- veille concurrentielle en temps réel\n- planification d'assortiment et pricing\n\n" ++
  S "Ce qui a retenu notre attention pour " ++ brand ++ S " :" ++ insText ++ S "\n\n" ++
  S "Ouvert à 15 min pour voir comment ces données peuvent sécuriser vos décisions ?\n\n" ++
  S "Bien à vous,\n" ++ senderNameD ++ S " — " ++ senderCompanyD

/-- One templated email of `generate_template_emails`. -/
def templateEmail (sender : Sender) (style : Str) (research : ResearchPayload)
    (comp : Company) (ct : Contact) : EmailItem :=
  let brand := brandFromDomain (pyDomain comp.website)
  let insText := templateInsText (templateInsights research comp.name)
  ⟨comp.name, ct.name, templateSubject brand,
    templateBody ct.name (styleHint style) (sender.company.getD (S "Livetrend"))
      brand insText (sender.name.getD [])⟩

/-- `generate_template_emails` from src/utils.py: for each company, one email
per contact (or one for the `Équipe` placeholder when no contacts exist). -/
def generate_template_emails (companies : CompaniesPayload)
    (contacts : ContactsPayload) (research : ResearchPayload)
    (sender : Sender) (style : Str) : EmailsPayload :=
  ⟨companies.companies.flatMap (fun comp =>
    (templateTargets contacts comp.name).map (templateEmail sender style research comp))⟩

/-- `run_email_writer` from src/pipeline.py: retry loop with the followups
merge before validation, then the template fallback when every attempt came up
empty. -/
def run_email_writer (agent : Nat → Str) (companies : CompaniesPayload)
    (contacts : ContactsPayload) (research : ResearchPayload) (sender : Sender)
    (style : Str) (retries : Nat) (allow_fallbacks : Bool) :
    Except Unit EmailsPayload :=
  match (retryLoop emailParse (stageResponses agent retries)).1 with
  | Except.error e => Except.error e
  | Except.ok es =>
    if es = [] ∧ allow_fallbacks = true then
      Except.ok (generate_template_emails companies contacts research sender style)
    else Except.ok ⟨es⟩

/-- `run_quality_check` from src/pipeline.py. `res` is `str(agent.run(...))`;
the stage is invoked once, with no retry or fallback. The result is `some`
of the returned list (`data.get("qc", [])` when that value is a list, else
`[]`); `none` models the uncaught `AttributeError` that `data.get` raises when
the parsed response is not a mapping. -/
def run_quality_check (res : Str) (emails : EmailsPayload) : Option (List Json) :=
  if emails.emails = [] then some []
  else
    match parse_json_safe res (Json.obj [(S "qc", Json.arr [])]) with
    | Json.obj kvs =>
      match (pyGet kvs (S "qc")).getD (Json.arr []) with
      | Json.arr l => some l
      | _ => some []
    | _ => none

/- ===================== Concrete scenario inputs ===================== -/

/-- The model response `{"companies": []}` of the C5 scenario. -/
def c5resp : Str := S "\x7b\"companies\": []\x7d"

/-- A prose-wrapped text holding two separate JSON objects. -/
def c2text : Str := S "x \x7b\"a\": 1\x7d and \x7b\"b\": 2\x7d"

/-- A quality-check agent response with an empty `qc` list. -/
def qcResp : Str := S "\x7b\"qc\": []\x7d"

/-- A one-email payload for the quality-check stage. -/
def qcEmails : EmailsPayload := ⟨[⟨S "A", S "B", S "s", S "b"⟩]⟩

/-- A contact-stage model response holding three contacts for one company. -/
def c4resp : Str := S "\x7b\"companies\": [\x7b\"company\": \"A\", \"contacts\": [\x7b\"name\": \"N1\", \"role\": \"R\"\x7d, \x7b\"name\": \"N2\", \"role\": \"R\"\x7d, \x7b\"name\": \"N3\", \"role\": \"R\"\x7d]\x7d]\x7d"

/-- The validated payload of `c4resp`. -/
def c4payload : ContactsPayload :=
  ⟨[⟨S "A", [⟨S "N1", S "R", none, some false, none⟩,
             ⟨S "N2", S "R", none, some false, none⟩,
             ⟨S "N3", S "R", none, some false, none⟩]⟩]⟩

/-- A research-stage model response with one 26-character insight. -/
def c6resp : Str := S "\x7b\"companies\": [\x7b\"company\": \"A\", \"insights\": [\"retail trends keep growing\"]\x7d]\x7d"

/-- A 54-character sentence mentioning the brand and a fashion keyword. -/
def c6sentence : Str := S "Acme ships new fashion trend collections every season."

/-- A search client returning one page of text for every content query. -/
def c6client : ExaClient :=
  ⟨fun _ _ => Except.ok [⟨S "https://acme.com/about", S "About", c6sentence⟩],
   fun _ _ => Except.ok []⟩

/-- A one-company upstream payload. -/
def acmeCompanies : CompaniesPayload := ⟨[⟨S "Acme", S "https://acme.com", S "w"⟩]⟩

/-- A sender dict with both keys present. -/
def sender0 : Sender := ⟨some (S "Jo"), some (S "Livetrend")⟩

/-- The template-fallback output for `acmeCompanies` with no contacts. -/
def c7payload : EmailsPayload :=
  generate_template_emails acmeCompanies ⟨[]⟩ ⟨[]⟩ sender0 (S "Professional")

/-- A company-stage model response with one valid company. -/
def zaraResp : Str := S "\x7b\"companies\": [\x7b\"name\": \"Zara fashion\", \"website\": \"https://zara.com\", \"why_fit\": \"fashion retail\"\x7d]\x7d"

/-- The company record the Zara response validates and normalizes to. -/
def zaraCompany : Company := ⟨S "Zara fashion", S "https://zara.com", S "fashion retail"⟩

/-- The normalized payload of `zaraResp`. -/
def zaraPayload : CompaniesPayload := ⟨[zaraCompany]⟩

/-- An abstract email record of the email-writing stage: the four schema
fields plus a (string) followups list, as the model returns them. -/
structure EmailRec where
  company : Str
  contact : Str
  subject : Str
  body : Str
  followups : List Str

/-- The raw parsed-JSON form of an `EmailRec`. -/
def emailRecJson (r : EmailRec) : Json :=
  Json.obj [(S "company", Json.str r.company), (S "contact", Json.str r.contact),
            (S "subject", Json.str r.subject), (S "body", Json.str r.body),
            (S "followups", Json.arr (r.followups.map Json.str))]

/-- The body after the followups merge (unchanged when the list is empty). -/
def emailRecBody (r : EmailRec) : Str :=
  if r.followups = [] then r.body
  else r.body ++ S "\n\n---\nFollow-ups:\n" ++ joinFollowups (r.followups.map Json.str)

/-- The raw record after the in-place `body` update of the merge loop. -/
def emailRecMergedJson (r : EmailRec) : Json :=
  Json.obj [(S "company", Json.str r.company), (S "contact", Json.str r.contact),
            (S "subject", Json.str r.subject), (S "body", Json.str (emailRecBody r)),
            (S "followups", Json.arr (r.followups.map Json.str))]

/-- The typed record the stage stores: four fields, no followups. -/
def emailRecItem (r : EmailRec) : EmailItem :=
  ⟨r.company, r.contact, r.subject, emailRecBody r⟩

/-- A one-record email response carrying a followups list. -/
def c9recs : List EmailRec := [⟨S "A", S "B", S "s", S "hi", [S "Quick follow-up?"]⟩]

/-- The raw response text serializing `c9recs`. -/
def c9text : Str := S "\x7b\"emails\": [\x7b\"company\": \"A\", \"contact\": \"B\", \"subject\": \"s\", \"body\": \"hi\", \"followups\": [\"Quick follow-up?\"]\x7d]\x7d"

/- ===================== Shared lemmas ===================== -/

theorem retryLoop_count_le {α : Type} (parse : Str → Except Unit (List α)) :
    ∀ resp : List Str, (retryLoop parse resp).2 ≤ resp.length := by
  intro resp
  induction resp with
  | nil => simp [retryLoop]
  | cons t rest ih =>
    simp only [retryLoop]
    cases h : parse t with
    | error e => simp
    | ok l =>
      cases l with
      | nil =>
        simp only [List.length_cons]
        omega
      | cons x xs => simp

theorem stageResponses_length (agent : Nat → Str) (r : Nat) :
    (stageResponses agent r).length = max 1 r + 1 := by
  simp [stageResponses]

theorem retryLoop_all_nil {α : Type} (parse : Str → Except Unit (List α)) :
    ∀ resp : List Str, (∀ t ∈ resp, parse t = Except.ok []) →
      (retryLoop parse resp).1 = Except.ok [] := by
  intro resp
  induction resp with
  | nil => intro _; rfl
  | cons t rest ih =>
    intro h
    simp only [retryLoop, h t (List.mem_cons_self t rest)]
    exact ih (fun t' ht' => h t' (List.mem_cons_of_mem t ht'))

theorem any_eq_false_mem {α : Type} {p : α → Bool} {l : List α}
    (h : l.any p = false) {x : α} (hx : x ∈ l) : p x = false := by
  cases hpx : p x
  · rfl
  · exfalso
    have : l.any p = true := List.any_eq_true.mpr ⟨x, hx, hpx⟩
    simp [h] at this

/- ===================== Claim C1 ===================== -/

/-- C1 (counterexample): with `retries = 0` and a model that always returns
unusable output, the company-discovery stage performs 2 agent invocations,
not the claimed at most `r + 1 = 1` — the loop bound is `max(1, retries)`. -/
theorem c1_counterexample :
    run_company_finder_calls (fun _ => S "") 0 = 2 ∧ ¬ (2 ≤ 0 + 1) :=
  ⟨rfl, by decide⟩

/-- C1 (amended): for every retry setting `r`, each of the four agent-backed
stages performs at most `max 1 r + 1` agent invocations before it falls back
or terminates with an empty payload (for `r ≥ 1` this is the claimed `r + 1`;
for `r = 0` the source still makes two attempts). -/
theorem c1_retry_bound (agent : Nat → Str) (r : Nat) :
    run_company_finder_calls agent r ≤ max 1 r + 1 ∧
    run_contact_finder_calls agent r ≤ max 1 r + 1 ∧
    run_research_calls agent r ≤ max 1 r + 1 ∧
    run_email_writer_calls agent r ≤ max 1 r + 1 := by
  have hl : (stageResponses agent r).length = max 1 r + 1 := stageResponses_length agent r
  exact ⟨hl ▸ retryLoop_count_le companyParse (stageResponses agent r),
         hl ▸ retryLoop_count_le contactParse (stageResponses agent r),
         hl ▸ retryLoop_count_le researchParse (stageResponses agent r),
         hl ▸ retryLoop_count_le emailParse (stageResponses agent r)⟩

/- ===================== Claim C5 ===================== -/

/-- C5 (counterexample): in the scenario — model answering
`{"companies": []}` on every attempt, `retries = 1`, fallbacks enabled, search
capability unavailable — the contact stage still performs two agent
invocations on its empty input, not the claimed zero capability contacts. -/
theorem c5_counterexample :
    run_contact_finder_calls (fun _ => c5resp) 1 = 2 ∧ ¬ (2 = 0) :=
  ⟨rfl, by decide⟩

/-- C5 (amended): in that scenario the final company payload is empty and the
contact, research and email stages each produce empty payloads; the
unavailable search capability is never consulted (`exa = none` short-circuits
every fallback), but each downstream stage still invokes the agent
`max(1, retries) + 1 = 2` times. -/
theorem c5_empty_cascade :
    run_company_finder (fun _ => c5resp) none (S "") (S "") 5 1 true = Except.ok ⟨[]⟩ ∧
    run_contact_finder (fun _ => c5resp) none ⟨[]⟩ (S "") (S "") 1 true = Except.ok ⟨[]⟩ ∧
    run_research (fun _ => c5resp) none ⟨[]⟩ 1 true = Except.ok ⟨[]⟩ ∧
    run_email_writer (fun _ => c5resp) ⟨[]⟩ ⟨[]⟩ ⟨[]⟩ ⟨none, none⟩ (S "Professional") 1 true =
      Except.ok ⟨[]⟩ ∧
    run_company_finder_calls (fun _ => c5resp) 1 = 2 ∧
    run_contact_finder_calls (fun _ => c5resp) 1 = 2 ∧
    run_research_calls (fun _ => c5resp) 1 = 2 ∧
    run_email_writer_calls (fun _ => c5resp) 1 = 2 :=
  ⟨rfl, rfl, rfl, rfl, rfl, rfl, rfl, rfl⟩

/- ===================== Claim C3 ===================== -/

/-- C3 (counterexample): on a one-email payload the quality check returns
whatever `qc` list the agent produced — here the empty list, whose length 0
differs from the email count 1; no positional alignment is enforced. -/
theorem c3_counterexample :
    run_quality_check qcResp qcEmails = some [] ∧
    qcEmails.emails.length = 1 ∧ ¬ (([] : List Json).length = qcEmails.emails.length) :=
  ⟨rfl, rfl, by decide⟩

/-- C3 (amended): quality check returns the empty list whenever the email list
is empty; on a non-empty email list its (exception-free) output is exactly the
parsed response's top-level `qc` list when that value is a list and the empty
list otherwise — its length is whatever the agent returned, with no guarantee
of matching the email list. -/
theorem c3_quality_check (res : Str) (emails : EmailsPayload) :
    (emails.emails = [] → run_quality_check res emails = some []) ∧
    (∀ l, run_quality_check res emails = some l →
      l = [] ∨ ∃ kvs, parse_json_safe res (Json.obj [(S "qc", Json.arr [])]) = Json.obj kvs ∧
        pyGet kvs (S "qc") = some (Json.arr l)) := by
  constructor
  · intro h
    simp [run_quality_check, h]
  · intro l hl
    by_cases he : emails.emails = []
    · simp only [run_quality_check, if_pos he, Option.some.injEq] at hl
      exact Or.inl hl.symm
    · simp only [run_quality_check, if_neg he] at hl
      split at hl
      next kvs heq =>
        split at hl
        next l2 heq2 =>
          injection hl with hl2
          cases hl2
          cases hq : pyGet kvs (S "qc") with
          | none =>
            rw [hq] at heq2
            simp only [Option.getD_none, Json.arr.injEq] at heq2
            exact Or.inl heq2.symm
          | some v =>
            rw [hq] at heq2
            simp only [Option.getD_some] at heq2
            exact Or.inr ⟨kvs, heq, by rw [hq, heq2]⟩
        next heq2 =>
          injection hl with hl2
          exact Or.inl hl2.symm
      next heq => exact Option.noConfusion hl

/-- C3 witness: the amended statement evaluated on the concrete scenario. -/
theorem c3_quality_check_witness :
    run_quality_check qcResp qcEmails = some [] ∧
    (([] : List Json) = [] ∨ ∃ kvs,
      parse_json_safe qcResp (Json.obj [(S "qc", Json.arr [])]) = Json.obj kvs ∧
      pyGet kvs (S "qc") = some (Json.arr [])) :=
  ⟨rfl, (c3_quality_check qcResp qcEmails).2 [] rfl⟩

/- ===================== Claim C4 ===================== -/

/-- C4 (counterexample): the model path of the contact stage applies no cap —
a response listing three contacts for one company is stored as is. -/
theorem c4_counterexample :
    run_contact_finder (fun _ => c4resp) none ⟨[]⟩ (S "") (S "") 1 true = Except.ok c4payload ∧
    c4payload.companies.map (fun pc => pc.contacts.length) = [3] ∧ ¬ ((3 : Nat) ≤ 2) :=
  ⟨rfl, rfl, by decide⟩

/-- C4 (amended): the two-contact cap holds on the Exa fallback path — every
company entry of `find_contacts_via_exa` carries at most 2 contacts (the
source truncates with `[:2]`); the model path enforces no such cap. -/
theorem c4_fallback_contacts_capped (exa : Option ExaClient) (companies : CompaniesPayload) :
    ∀ pc ∈ (find_contacts_via_exa exa companies).companies, pc.contacts.length ≤ 2 := by
  intro pc hpc
  cases exa with
  | none => simp [find_contacts_via_exa] at hpc
  | some client =>
    simp only [find_contacts_via_exa] at hpc
    obtain ⟨c, _, rfl⟩ := List.mem_map.mp hpc
    exact List.length_take_le 2 _

/-- C4 witness: the cap evaluated on a concrete fallback run. -/
theorem c4_fallback_contacts_capped_witness :
    (⟨S "Acme", []⟩ : ContactsPerCompany).contacts.length ≤ 2 :=
  c4_fallback_contacts_capped (some c6client) acmeCompanies ⟨S "Acme", []⟩ (List.Mem.head _)

/- ===================== Claim C6 ===================== -/

/-- C6 (counterexample): an insight produced by the model path only passes the
noise and fashion-keyword filters of `clean_research` — this 26-character
insight survives `run_research`, violating the claimed 40–200 window. -/
theorem c6_counterexample :
    run_research (fun _ => c6resp) none ⟨[]⟩ 1 true =
      Except.ok ⟨[⟨S "A", [S "retail trends keep growing"]⟩]⟩ ∧
    (S "retail trends keep growing").length = 26 ∧ ¬ (40 ≤ 26) :=
  ⟨rfl, rfl, by decide⟩

/-- Every point kept by the `_extract_key_points` loop is the strip of a
sentence whose pre-strip length lies in the 40–200 window. -/
theorem ekpGo_mem (brand : Option Str) :
    ∀ (ss : List Str) (p : Str), p ∈ ekpGo brand ss →
      ∃ s, p = pyStrip s ∧ 40 ≤ s.length ∧ s.length ≤ 200 := by
  intro ss
  induction ss with
  | nil => intro p hp; simp [ekpGo] at hp
  | cons s ss ih =>
    intro p hp
    simp only [ekpGo] at hp
    by_cases h1 : ekpSkip brand (lowerStr s) = true
    · rw [if_pos h1] at hp
      exact ih p hp
    · rw [if_neg h1] at hp
      by_cases h2 : 40 ≤ s.length ∧ s.length ≤ 200
      · rw [if_pos h2] at hp
        rcases List.mem_cons.mp hp with hhd | htl
        · exact ⟨s, hhd, h2.1, h2.2⟩
        · exact ih p htl
      · rw [if_neg h2] at hp
        exact ih p hp

theorem extractKeyPoints_mem (text : Str) (brand : Option Str) (p : Str)
    (hp : p ∈ extractKeyPoints text brand) :
    ∃ s, p = pyStrip s ∧ 40 ≤ s.length ∧ s.length ≤ 200 :=
  ekpGo_mem brand (splitSentences text) p (List.take_subset 4 _ hp)

theorem dedupAdd_mem :
    ∀ (pts ins : List Str) (p : Str), p ∈ dedupAdd ins pts → p ∈ ins ∨ p ∈ pts := by
  intro pts
  induction pts with
  | nil => intro ins p hp; exact Or.inl hp
  | cons pt pts ih =>
    intro ins p hp
    simp only [dedupAdd] at hp
    rcases ih _ p hp with hin | hpts
    · by_cases hmem : pt ∈ ins
      · rw [if_pos hmem] at hin
        exact Or.inl hin
      · rw [if_neg hmem] at hin
        rcases List.mem_append.mp hin with h | h
        · exact Or.inl h
        · exact Or.inr (List.mem_cons.mpr (Or.inl (List.mem_singleton.mp h)))
    · exact Or.inr (List.mem_cons_of_mem pt hpts)

theorem researchItems_good (brand : Str)
    (good : Str → Prop)
    (hgood : ∀ text p, p ∈ extractKeyPoints text (some brand) → good p) :
    ∀ (rs : List ExaResult) (ins : List Str), (∀ p ∈ ins, good p) →
      ∀ p ∈ researchItems brand rs ins, good p := by
  intro rs
  induction rs with
  | nil => intro ins hins p hp; exact hins p hp
  | cons r rs ih =>
    intro ins hins p hp
    refine ih _ ?_ p hp
    intro q hq
    rcases dedupAdd_mem _ ins q hq with h | h
    · exact hins q h
    · exact hgood r.text q h

theorem researchQueries_good (client : ExaClient) (brand : Str)
    (good : Str → Prop)
    (hgood : ∀ text p, p ∈ extractKeyPoints text (some brand) → good p) :
    ∀ (qs : List Str) (ins : List Str), (∀ p ∈ ins, good p) →
      ∀ p ∈ researchQueries client brand qs ins, good p := by
  intro qs
  induction qs with
  | nil => intro ins hins p hp; exact hins p hp
  | cons q qs ih =>
    intro ins hins p hp
    simp only [researchQueries] at hp
    cases hs : client.search_and_contents q 3 with
    | error e =>
      rw [hs] at hp
      exact ih ins hins p hp
    | ok items =>
      rw [hs] at hp
      exact ih _ (researchItems_good brand good hgood items ins hins) p hp

/-- C6 (amended): every research insight produced by the Exa fallback path is
the stripped form of a sentence whose length (before stripping) lies between
40 and 200 characters; the model path, cleaned only by `clean_research`,
carries no such length bound. -/
theorem c6_fallback_insight_window (exa : Option ExaClient) (companies : CompaniesPayload) :
    ∀ rc ∈ (collect_research_via_exa exa companies).companies, ∀ p ∈ rc.insights,
      ∃ s, p = pyStrip s ∧ 40 ≤ s.length ∧ s.length ≤ 200 := by
  intro rc hrc p hp
  cases exa with
  | none => simp [collect_research_via_exa] at hrc
  | some client =>
    simp only [collect_research_via_exa] at hrc
    obtain ⟨c, _, rfl⟩ := List.mem_map.mp hrc
    refine researchQueries_good client _
      (fun q => ∃ s, q = pyStrip s ∧ 40 ≤ s.length ∧ s.length ≤ 200) ?_ _ []
      (by simp) p (List.take_subset 4 _ hp)
    intro text q hq
    exact extractKeyPoints_mem text _ q hq

/-- C6 witness: the window evaluated on a concrete fallback run. -/
theorem c6_fallback_insight_window_witness :
    ∃ s, c6sentence = pyStrip s ∧ 40 ≤ s.length ∧ s.length ≤ 200 :=
  c6_fallback_insight_window (some c6client) acmeCompanies
    ⟨S "Acme", [c6sentence]⟩ (List.Mem.head _) c6sentence (List.Mem.head _)

/- ===================== Claim C2 ===================== -/

theorem dropWhile_eq_append {α : Type} (p : α → Bool) :
    ∀ l : List α, ∃ t, t ++ l.dropWhile p = l := by
  intro l
  induction l with
  | nil => exact ⟨[], rfl⟩
  | cons a l ih =>
    rw [List.dropWhile_cons]
    by_cases h : p a = true
    · rw [if_pos h]
      obtain ⟨t, ht⟩ := ih
      exact ⟨a :: t, by rw [List.cons_append, ht]⟩
    · rw [if_neg h]
      exact ⟨[], rfl⟩

theorem upToLast_eq_append (ch : Char) (l : List Char) :
    ∃ t, upToLast ch l ++ t = l := by
  obtain ⟨t, ht⟩ := dropWhile_eq_append (fun c => ¬ c = ch) l.reverse
  refine ⟨t.reverse, ?_⟩
  have : (l.reverse.dropWhile (fun c => ¬ c = ch)).reverse ++ t.reverse = (t ++ l.reverse.dropWhile (fun c => ¬ c = ch)).reverse := by
    rw [List.reverse_append]
  rw [upToLast, this, ht, List.reverse_reverse]

theorem regexCandidate_subOf :
    ∀ (text cand : Str), regexCandidate text = some cand → SubOf cand text := by
  intro text
  induction text with
  | nil => intro cand h; exact Option.noConfusion h
  | cons c rest ih =>
    intro cand h
    simp only [regexCandidate] at h
    by_cases h1 : c = '{' ∧ '}' ∈ rest
    · rw [if_pos h1] at h
      injection h with h2
      obtain ⟨t, ht⟩ := upToLast_eq_append '}' rest
      exact ⟨[], t, by rw [← h2, List.nil_append, List.cons_append, ht]⟩
    · rw [if_neg h1] at h
      by_cases h2 : c = '[' ∧ ']' ∈ rest
      · rw [if_pos h2] at h
        injection h with h3
        obtain ⟨t, ht⟩ := upToLast_eq_append ']' rest
        exact ⟨[], t, by rw [← h3, List.nil_append, List.cons_append, ht]⟩
      · rw [if_neg h2] at h
        exact subOf_app_right [c] (ih cand h)

/-- C2 (amended): `parse_json_safe` never raises; it returns the strict parse
of the whole text when that parse succeeds, and otherwise its result is
either the parse of a (single greedy regex-extracted) substring of the text or
exactly the caller-supplied default — never the parse of the first balanced
literal, as the comparison with `parse_json_spec` below shows. -/
theorem c2_parse_json_safe (text : Str) (default : Json) :
    (∀ v, json_loads text = some v → parse_json_safe text default = v) ∧
    (parse_json_safe text default = default ∨
      ∃ s, SubOf s text ∧ json_loads s = some (parse_json_safe text default)) := by
  by_cases ht : text = []
  · subst ht
    constructor
    · intro v hv
      have h0 : json_loads ([] : Str) = none := rfl
      rw [h0] at hv
      exact Option.noConfusion hv
    · exact Or.inl rfl
  · constructor
    · intro v hv
      simp only [parse_json_safe, if_neg ht, hv]
    · cases hv : json_loads text with
      | some v =>
        right
        refine ⟨text, ⟨[], [], by simp⟩, ?_⟩
        simp only [parse_json_safe, if_neg ht, hv]
      | none =>
        cases hc : regexCandidate text with
        | none =>
          left
          simp only [parse_json_safe, if_neg ht, hv, hc]
        | some cand =>
          cases hl : json_loads cand with
          | none =>
            left
            simp only [parse_json_safe, if_neg ht, hv, hc, hl]
          | some w =>
            right
            refine ⟨cand, regexCandidate_subOf text cand hc, ?_⟩
            simp only [parse_json_safe, if_neg ht, hv, hc, hl]

/-- C2 witness: the amended statement on a strictly valid text. -/
theorem c2_parse_json_safe_witness :
    parse_json_safe (S "1") Json.null = Json.num (S "1") :=
  (c2_parse_json_safe (S "1") Json.null).1 (Json.num (S "1")) rfl

/-- C2 (counterexample): on prose wrapping two objects, the first balanced
literal `{"a": 1}` parses — the spec-modelled strategy returns it — but the
source's greedy regex candidate spans to the last brace, fails to parse, and
the caller-supplied default comes back instead. -/
theorem c2_counterexample :
    parse_json_safe c2text Json.null = Json.null ∧
    parse_json_spec c2text Json.null = Json.obj [(S "a", Json.num (S "1"))] ∧
    ¬ parse_json_spec c2text Json.null = parse_json_safe c2text Json.null := by
  refine ⟨rfl, rfl, ?_⟩
  intro h
  have h2 : Json.obj [(S "a", Json.num (S "1"))] = Json.null := by
    calc Json.obj [(S "a", Json.num (S "1"))]
        = parse_json_spec c2text Json.null := rfl
      _ = parse_json_safe c2text Json.null := h
      _ = Json.null := rfl
  exact Json.noConfusion h2

/- ===================== Claim C7 ===================== -/

theorem templateBody_subOf_name (ctName styleH senderCompanyD brand insText senderNameD : Str) :
    SubOf senderNameD
      (templateBody ctName styleH senderCompanyD brand insText senderNameD) := by
  refine ⟨S "Bonjour " ++ ctName ++ S ",\n\n" ++
    S "Je me permets de vous contacter (– " ++ styleH ++ S ") au nom de " ++
    senderCompanyD ++ S ". " ++
    S "Nous aidons les équipes buying/merchandising à construire des collections best-sellers grâce à :\n" ++
    S "- analyses de tendances data-driven\n- veille concurrentielle en temps réel\n- planification d'assortiment et pricing\n\n" ++
    S "Ce qui a retenu notre attention pour " ++ brand ++ S " :" ++ insText ++ S "\n\n" ++
    S "Ouvert à 15 min pour voir comment ces données peuvent sécuriser vos décisions ?\n\n" ++
    S "Bien à vous,\n", S " — " ++ senderCompanyD, ?_⟩
  simp only [templateBody, List.append_assoc]

theorem templateBody_subOf_company (ctName styleH senderCompanyD brand insText senderNameD : Str) :
    SubOf senderCompanyD
      (templateBody ctName styleH senderCompanyD brand insText senderNameD) := by
  refine ⟨S "Bonjour " ++ ctName ++ S ",\n\n" ++
    S "Je me permets de vous contacter (– " ++ styleH ++ S ") au nom de ",
    S ". " ++
    S "Nous aidons les équipes buying/merchandising à construire des collections best-sellers grâce à :\n" ++
    S "- analyses de tendances data-driven\n- veille concurrentielle en temps réel\n- planification d'assortiment et pricing\n\n" ++
    S "Ce qui a retenu notre attention pour " ++ brand ++ S " :" ++ insText ++ S "\n\n" ++
    S "Ouvert à 15 min pour voir comment ces données peuvent sécuriser vos décisions ?\n\n" ++
    S "Bien à vous,\n" ++ senderNameD ++ S " — " ++ senderCompanyD, ?_⟩
  simp only [templateBody, List.append_assoc]

theorem templateSubject_ne_nil (brand : Str) : ¬ templateSubject brand = [] := by
  intro h
  rcases List.append_eq_nil.mp h with ⟨_, h2⟩
  exact absurd h2 (by decide)

/-- C7 (amended): when every email-writing attempt yields no records and
fallbacks are enabled, the stage returns exactly the template payload: one
email per (company, contact) pair — the placeholder contact stored for a
company without contacts is named `Équipe` (with role `Team`), not `Team` —
and every email has a non-empty subject and a body containing the sender name
and the sender company. -/
theorem c7_template_fallback (companies : CompaniesPayload) (contacts : ContactsPayload)
    (research : ResearchPayload) (sender : Sender) (style : Str) (agent : Nat → Str) (r : Nat)
    (h : ∀ i, emailParse (agent i) = Except.ok []) :
    run_email_writer agent companies contacts research sender style r true =
      Except.ok (generate_template_emails companies contacts research sender style) ∧
    (generate_template_emails companies contacts research sender style).emails.length =
      (companies.companies.map (fun comp => (templateTargets contacts comp.name).length)).sum ∧
    ∀ e ∈ (generate_template_emails companies contacts research sender style).emails,
      ¬ e.subject = [] ∧ SubOf (sender.name.getD []) e.body ∧
        SubOf (sender.company.getD (S "Livetrend")) e.body := by
  refine ⟨?_, ?_, ?_⟩
  · have hall : ∀ t ∈ stageResponses agent r, emailParse t = Except.ok [] := by
      intro t ht
      obtain ⟨i, _, rfl⟩ := List.mem_map.mp ht
      exact h i
    have hloop := retryLoop_all_nil emailParse (stageResponses agent r) hall
    unfold run_email_writer
    rw [hloop]
    rfl
  · simp only [generate_template_emails, List.length_flatMap]
    have hfun : (List.length ∘ fun comp =>
        List.map (templateEmail sender style research comp)
          (templateTargets contacts comp.name)) =
        fun comp => (templateTargets contacts comp.name).length := by
      funext comp
      simp [Function.comp, List.length_map]
    rw [hfun]
  · intro e he
    simp only [generate_template_emails] at he
    obtain ⟨comp, _, hin⟩ := List.mem_flatMap.mp he
    obtain ⟨ct, _, rfl⟩ := List.mem_map.mp hin
    refine ⟨templateSubject_ne_nil _, ?_, ?_⟩
    · exact templateBody_subOf_name _ _ _ _ _ _
    · exact templateBody_subOf_company _ _ _ _ _ _

/-- C7 witness: the amended statement on a concrete run (one company, no
contacts, an agent whose output is always empty). -/
theorem c7_template_fallback_witness :
    run_email_writer (fun _ => S "") acmeCompanies ⟨[]⟩ ⟨[]⟩ sender0 (S "Professional") 1 true =
      Except.ok (generate_template_emails acmeCompanies ⟨[]⟩ ⟨[]⟩ sender0 (S "Professional")) ∧
    (generate_template_emails acmeCompanies ⟨[]⟩ ⟨[]⟩ sender0 (S "Professional")).emails.length =
      (acmeCompanies.companies.map
        (fun comp => (templateTargets ⟨[]⟩ comp.name).length)).sum ∧
    ∀ e ∈ (generate_template_emails acmeCompanies ⟨[]⟩ ⟨[]⟩ sender0 (S "Professional")).emails,
      ¬ e.subject = [] ∧ SubOf (sender0.name.getD []) e.body ∧
        SubOf (sender0.company.getD (S "Livetrend")) e.body :=
  c7_template_fallback acmeCompanies ⟨[]⟩ ⟨[]⟩ sender0 (S "Professional")
    (fun _ => S "") 1 (fun _ => rfl)

/-- C7 (counterexample): for a company with no contacts the stored placeholder
contact is `Équipe` (role `Team`), not the claimed contact `"Team"`. -/
theorem c7_counterexample :
    run_email_writer (fun _ => S "") acmeCompanies ⟨[]⟩ ⟨[]⟩ sender0 (S "Professional") 1 true =
      Except.ok c7payload ∧
    c7payload.emails.map (fun e => e.contact) = [S "Équipe"] ∧
    ¬ S "Équipe" = S "Team" :=
  ⟨rfl, rfl, by decide⟩

/- ===================== Claim C8 ===================== -/

theorem normalizeGo_inv (excl : List Str) :
    ∀ (cs : List Company) (seen : List Str),
      (((normalizeGo excl cs seen).map (fun c => pyDomain c.website)).Nodup) ∧
      ∀ c ∈ normalizeGo excl cs seen,
        pyExcluded (pyDomain c.website) excl = false ∧ ¬ pyDomain c.website ∈ seen := by
  intro cs
  induction cs with
  | nil => intro seen; simp [normalizeGo]
  | cons c cs ih =>
    intro seen
    simp only [normalizeGo]
    by_cases h1 : pyExcluded (pyDomain c.website) excl = true ∨ pyDomain c.website ∈ seen
    · rw [if_pos h1]
      exact ih seen
    · rw [if_neg h1]
      push_neg at h1
      have hx : pyExcluded (pyDomain c.website) excl = false :=
        Bool.not_eq_true _ ▸ Bool.of_not_eq_true h1.1
      by_cases h2 : fashionSearch (c.why_fit ++ S " " ++
          inferCompanyName c.name c.website) = false
      · rw [if_pos h2]
        refine ⟨(ih _).1, fun c' hc' => ⟨((ih _).2 c' hc').1, fun hmem =>
          ((ih _).2 c' hc').2 (List.mem_cons_of_mem _ hmem)⟩⟩
      · rw [if_neg h2]
        constructor
        · rw [List.map_cons]
          refine List.nodup_cons.mpr ⟨?_, (ih _).1⟩
          intro hmem
          obtain ⟨c', hc', hdom⟩ := List.mem_map.mp hmem
          exact ((ih _).2 c' hc').2 (hdom ▸ List.mem_cons_self _ _)
        · intro c' hc'
          rcases List.mem_cons.mp hc' with hhd | htl
          · subst hhd
            exact ⟨hx, h1.2⟩
          · exact ⟨((ih _).2 c' htl).1, fun hmem =>
              ((ih _).2 c' htl).2 (List.mem_cons_of_mem _ hmem)⟩

/-- C8: the companies kept by `run_company_finder` — model and fallback
payloads alike pass through `normalize_companies` — have pairwise distinct
website domains, and no kept domain ends with an entry of the exclusion list
(`["livetrend.co"]` in the source). Stated first for `normalize_companies`
with an arbitrary exclusion list, then for the stage output. -/
theorem c8_domain_invariants :
    (∀ (excl : List Str) (payload : CompaniesPayload),
      (((normalize_companies payload excl).companies.map
          (fun c => pyDomain c.website)).Nodup) ∧
      ∀ c ∈ (normalize_companies payload excl).companies,
        pyExcluded (pyDomain c.website) excl = false) ∧
    ∀ (agent : Nat → Str) (exa : Option ExaClient) (t o : Str) (n r : Nat) (fb : Bool)
      (p : CompaniesPayload),
      run_company_finder agent exa t o n r fb = Except.ok p →
      ((p.companies.map (fun c => pyDomain c.website)).Nodup ∧
       ∀ c ∈ p.companies, ∀ ex ∈ [S "livetrend.co"],
         strEnds (lowerStr ex) (lowerStr (pyDomain c.website)) = false) := by
  have hnorm : ∀ (excl : List Str) (payload : CompaniesPayload),
      (((normalize_companies payload excl).companies.map
          (fun c => pyDomain c.website)).Nodup) ∧
      ∀ c ∈ (normalize_companies payload excl).companies,
        pyExcluded (pyDomain c.website) excl = false := by
    intro excl payload
    exact ⟨(normalizeGo_inv excl payload.companies []).1,
      fun c hc => ((normalizeGo_inv excl payload.companies []).2 c hc).1⟩
  refine ⟨hnorm, ?_⟩
  intro agent exa t o n r fb p hp
  unfold run_company_finder at hp
  cases hloop : (retryLoop companyParse (stageResponses agent r)).1 with
  | error e => rw [hloop] at hp; exact Except.noConfusion hp
  | ok cs =>
    rw [hloop] at hp
    injection hp with hp2
    set payload1 : CompaniesPayload :=
      if (⟨cs⟩ : CompaniesPayload).companies = [] ∧ fb = true then
        discover_companies_via_exa exa t o n [S "livetrend.co"]
      else ⟨cs⟩ with hpay
    by_cases hne : payload1.companies = []
    · rw [if_neg (by simp [hne])] at hp2
      subst hp2
      rw [hne]
      simp
    · rw [if_pos hne] at hp2
      subst hp2
      refine ⟨(hnorm [S "livetrend.co"] payload1).1, ?_⟩
      intro c hc ex hex
      have hx := (hnorm [S "livetrend.co"] payload1).2 c hc
      obtain rfl := List.mem_singleton.mp hex
      have h2 : strEnds (lowerStr (S "livetrend.co")) (lowerStr (pyDomain c.website)) = false ∧
          strHasSub (S "livetrend") (lowerStr (pyDomain c.website)) = false := by
        simpa [pyExcluded] using hx
      exact h2.1

/-- C8 witness: the invariants on a concrete stage run that keeps one company. -/
theorem c8_domain_invariants_witness :
    ((zaraPayload.companies.map (fun c => pyDomain c.website)).Nodup ∧
     ∀ c ∈ zaraPayload.companies, ∀ ex ∈ [S "livetrend.co"],
       strEnds (lowerStr ex) (lowerStr (pyDomain c.website)) = false) :=
  c8_domain_invariants.2 (fun _ => zaraResp) none (S "") (S "") 5 1 true zaraPayload rfl

/- ===================== Claim C10 ===================== -/

theorem exaCollect_excluded (excl : List Str) (lim : Nat) :
    ∀ (items : List ExaResult) (seen : List Str) (cnt : Nat),
      ∀ c ∈ exaCollect excl lim items seen cnt,
        pyExcluded (pyDomain c.website) excl = false := by
  intro items
  induction items with
  | nil => intro seen cnt c hc; simp [exaCollect] at hc
  | cons r rs ih =>
    intro seen cnt c hc
    simp only [exaCollect] at hc
    by_cases h1 : pyExcluded (pyDomain r.url) excl = true ∨ pyDomain r.url ∈ seen
    · rw [if_pos h1] at hc
      exact ih _ _ c hc
    · rw [if_neg h1] at hc
      push_neg at h1
      have hx : pyExcluded (pyDomain r.url) excl = false :=
        Bool.not_eq_true _ ▸ Bool.of_not_eq_true h1.1
      by_cases h2 : fashionSearch (pyOr r.text r.title) = false
      · rw [if_pos h2] at hc
        exact ih _ _ c hc
      · rw [if_neg h2] at hc
        by_cases h3 : lim ≤ cnt + 1
        · rw [if_pos h3] at hc
          rw [List.mem_singleton.mp hc]
          exact hx
        · rw [if_neg h3] at hc
          rcases List.mem_cons.mp hc with hhd | htl
          · rw [hhd]
            exact hx
          · exact ih _ _ c htl

/-- C10: for every exclusion-list argument, the empty list included, both
`normalize_companies` and `discover_companies_via_exa` keep only companies
whose (lowered) website domain does not contain the substring `livetrend` —
the test is hard-coded in `_excluded`, independent of the configured list, so
every candidate whose domain contains it is discarded. -/
theorem c10_livetrend_hardcoded (excl : List Str) :
    (∀ (payload : CompaniesPayload),
      ∀ c ∈ (normalize_companies payload excl).companies,
        strHasSub (S "livetrend") (lowerStr (pyDomain c.website)) = false) ∧
    ∀ (exa : Option ExaClient) (t o : Str) (lim : Nat),
      ∀ c ∈ (discover_companies_via_exa exa t o lim excl).companies,
        strHasSub (S "livetrend") (lowerStr (pyDomain c.website)) = false := by
  constructor
  · intro payload c hc
    have hx := ((normalizeGo_inv excl payload.companies []).2 c hc).1
    have h2 : (∀ x ∈ excl, strEnds (lowerStr x) (lowerStr (pyDomain c.website)) = false) ∧
        strHasSub (S "livetrend") (lowerStr (pyDomain c.website)) = false := by
      simpa [pyExcluded] using hx
    exact h2.2
  · intro exa t o lim c hc
    have hx : pyExcluded (pyDomain c.website) excl = false := by
      cases exa with
      | none => simp [discover_companies_via_exa] at hc
      | some client =>
        simp only [discover_companies_via_exa] at hc
        cases hs : client.search_and_contents (exaCompanyQuery t) (lim * 2) with
        | ok items =>
          rw [hs] at hc
          exact exaCollect_excluded excl lim items [] 0 c hc
        | error e =>
          rw [hs] at hc
          cases hs2 : client.search (exaCompanyQuery t) (lim * 2) with
          | ok items =>
            rw [hs2] at hc
            exact exaCollect_excluded excl lim items [] 0 c hc
          | error e2 =>
            rw [hs2] at hc
            simp at hc
    have h2 : (∀ x ∈ excl, strEnds (lowerStr x) (lowerStr (pyDomain c.website)) = false) ∧
        strHasSub (S "livetrend") (lowerStr (pyDomain c.website)) = false := by
      simpa [pyExcluded] using hx
    exact h2.2

/-- C10 witness: the hard-coded filter evaluated on a concrete normalization
that keeps a non-livetrend company. -/
theorem c10_livetrend_hardcoded_witness :
    strHasSub (S "livetrend") (lowerStr (pyDomain zaraCompany.website)) = false :=
  (c10_livetrend_hardcoded []).1 zaraPayload zaraCompany (List.Mem.head _)

/- ===================== Claim C9 ===================== -/

theorem mergeFollowups_emailRec (r : EmailRec) :
    mergeFollowups (emailRecJson r) = Except.ok (emailRecMergedJson r) := by
  obtain ⟨c, ct, sj, b, fus⟩ := r
  cases fus with
  | nil => rfl
  | cons f fs => rfl

theorem setDefaults_emailRec (r : EmailRec) :
    setContactDefaults (emailRecMergedJson r) = Except.ok (emailRecMergedJson r) := rfl

theorem validate_emailRec (r : EmailRec) :
    validateEmailItem (emailRecMergedJson r) = some (emailRecItem r) := rfl

theorem exTraverse_map {α β γ : Type} (f : β → Except Unit γ) (g : α → β) (g2 : α → γ)
    (hpt : ∀ a, f (g a) = Except.ok (g2 a)) :
    ∀ l : List α, exTraverse f (l.map g) = Except.ok (l.map g2) := by
  intro l
  induction l with
  | nil => rfl
  | cons a l ih => simp only [List.map_cons, exTraverse, hpt a, ih]

theorem omapM_map {α β γ : Type} (v : β → Option γ) (g : α → β) (g2 : α → γ)
    (hpt : ∀ a, v (g a) = some (g2 a)) :
    ∀ l : List α, omapM v (l.map g) = some (l.map g2) := by
  intro l
  induction l with
  | nil => rfl
  | cons a l ih => simp only [List.map_cons, omapM, hpt a, ih]

/-- C9: for every list of parsed email records, the post-parse processing of
`run_email_writer` merges a non-empty `followups` list into `body` — the
final body is the original body followed by the labelled `Follow-ups` block
listing those lines — before schema validation, and the stored typed records
are `EmailItem`s (four fields, no followups field). The last conjunct carries
the property through `emailParse`, the per-attempt function of the stage. -/
theorem c9_followups_merge (rs : List EmailRec) :
    emailsFromData (Json.obj [(S "emails", Json.arr (rs.map emailRecJson))]) =
      Except.ok (rs.map emailRecItem) ∧
    (∀ r : EmailRec, ¬ r.followups = [] →
      emailRecBody r = r.body ++ S "\n\n---\nFollow-ups:\n" ++
        List.intercalate (S "\n") (r.followups.map (fun t => S "- " ++ t))) ∧
    ∀ text : Str,
      parse_json_safe text emailsDefault =
        Json.obj [(S "emails", Json.arr (rs.map emailRecJson))] →
      emailParse text = Except.ok (rs.map emailRecItem) := by
  have h1 := exTraverse_map mergeFollowups emailRecJson emailRecMergedJson
    mergeFollowups_emailRec rs
  have h2 := exTraverse_map setContactDefaults emailRecMergedJson emailRecMergedJson
    setDefaults_emailRec rs
  have h3 := omapM_map validateEmailItem emailRecMergedJson emailRecItem
    validate_emailRec rs
  have hstep : emailsFromData (Json.obj [(S "emails", Json.arr (rs.map emailRecJson))]) =
      (match exTraverse mergeFollowups (rs.map emailRecJson) with
       | Except.error e => Except.error e
       | Except.ok es2 =>
         match exTraverse setContactDefaults es2 with
         | Except.error e => Except.error e
         | Except.ok es3 => Except.ok ((omapM validateEmailItem es3).getD [])) := rfl
  have hmain : emailsFromData (Json.obj [(S "emails", Json.arr (rs.map emailRecJson))]) =
      Except.ok (rs.map emailRecItem) := by
    rw [hstep]
    simp only [h1, h2, h3, Option.getD_some]
  refine ⟨hmain, ?_, ?_⟩
  · intro r hr
    simp only [emailRecBody, if_neg hr, joinFollowups, List.map_map]
    rfl
  · intro text hparse
    have he : emailParse text = emailsFromData (parse_json_safe text emailsDefault) := rfl
    rw [he, hparse]
    exact hmain

/-- C9 witness: the merge evaluated on the concrete one-record response
containing `followups: ["Quick follow-up?"]`. -/
theorem c9_followups_merge_witness :
    emailParse c9text =
      Except.ok [⟨S "A", S "B", S "s", S "hi\n\n---\nFollow-ups:\n- Quick follow-up?"⟩] :=
  (c9_followups_merge c9recs).2.2 c9text rfl
